import Mathlib

/-!
Verification of the dslDictionaryImporter parse core (src/main.go).

Shallow embedding of the Go program in `src/main.go`: the generic `Table`
store (`NewTable`, `SetUniqueCols`, `AddRow`), the per-line tag extractors
(`scanTitle`, `scanWordArticleTitle`, `validateBodyLine`, `extractNote`,
`extractTranslation`, `cleanupLine`) and the line-scanning loop of `main`.

Conventions of the embedding:
* Lines are handed to the loop by `bufio.Scanner`, which never yields a
  string containing a newline; the Go regexp rule that `.` does not match
  a newline is therefore vacuous on every input the extractors ever see,
  and the extractors below are transcribed for newline-free lines.
* Go `int64` identities are modelled as `Int` (a run would need 2^63
  successful inserts before Go wraps, which is unreachable here).
* `log.Panicf` / `errs.FailOnError` abort the process; fallible
  operations return `Option`, `none` standing for the abort.
* Go's `map[string]int64` is modelled as an association list whose keys
  are pairwise distinct (each key is inserted only when absent).
-/

/-- The character class `\s` of Go's regexp package: `[\t\n\f\r ]`. -/
def goRegexSpace (c : Char) : Bool :=
  c = ' ' || c = '\t' || c = '\n' || c = Char.ofNat 12 || c = '\r'

/-- `unicode.IsSpace` as used by `strings.TrimSpace`, restricted to the
Latin-1 range: `[\t\n\v\f\r \x85\xA0]`. -/
def goUnicodeSpace (c : Char) : Bool :=
  c = ' ' || c = '\t' || c = '\n' || c = Char.ofNat 11 || c = Char.ofNat 12 ||
  c = '\r' || c = Char.ofNat 133 || c = Char.ofNat 160

/-- `startsWithL pat s` is true when `pat` occurs at the head of `s`. -/
def startsWithL : List Char → List Char → Bool
  | [], _ => true
  | _ :: _, [] => false
  | p :: ps, c :: cs => p = c && startsWithL ps cs

/-- `pat` occurs in `s` at offset `i` (as a Bool-valued predicate). -/
def occursAtB (pat s : List Char) (i : Nat) : Bool :=
  startsWithL pat (s.drop i)

/-- Offset of the leftmost occurrence of `pat` in `s`
(`strings.Contains` / leftmost regexp match position). -/
def findSub (pat s : List Char) : Option Nat :=
  if startsWithL pat s then some 0
  else
    match s with
    | [] => none
    | _ :: t => (findSub pat t).map (· + 1)

/-- Offset of the rightmost occurrence of `pat` in `s` (the end of a
greedy `(.*)` capture that must still be followed by `pat`). -/
def findSubLast (pat s : List Char) : Option Nat :=
  match s with
  | [] => if startsWithL pat [] then some 0 else none
  | c :: t =>
    match findSubLast pat t with
    | some j => some (j + 1)
    | none => if startsWithL pat (c :: t) then some 0 else none

/-- `strings.Contains`. -/
def containsSub (pat s : List Char) : Bool :=
  (findSub pat s).isSome

/-- State machine for `regexp.ReplaceAllString` with pattern `\[.*?]` and
empty replacement: on `[` start buffering; the buffer is dropped at the
first `]` and re-emitted literally when the line ends with no `]` left
(in which case no further match can start inside it either). The buffer
holds the characters after the opening `[` in reverse order. -/
def stripTagsAux : Option (List Char) → List Char → List Char
  | none, [] => []
  | some buf, [] => '[' :: buf.reverse
  | none, c :: rest =>
    if c = '[' then stripTagsAux (some []) rest else c :: stripTagsAux none rest
  | some buf, c :: rest =>
    if c = ']' then stripTagsAux none rest else stripTagsAux (some (c :: buf)) rest

/-- First step of `cleanupLine`: delete every non-greedy `\[.*?]` match. -/
def stripTags (s : List Char) : List Char :=
  stripTagsAux none s

/-- Pending-whitespace-run state: `some (c0, multi)` means a run of regexp
whitespace is open, began with `c0`, and `multi` records whether it has at
least two characters (only such runs match `\s{2,}`). -/
def wsFlush : Option (Char × Bool) → List Char
  | none => []
  | some (c0, false) => [c0]
  | some (_, true) => [' ']

/-- State machine for `regexp.ReplaceAllString` with pattern `\s{2,}` and
replacement `" "`: runs of two or more regexp-whitespace characters become
one space, single whitespace characters are kept as they are. -/
def collapseWsAux : Option (Char × Bool) → List Char → List Char
  | st, [] => wsFlush st
  | st, c :: rest =>
    if goRegexSpace c then
      match st with
      | none => collapseWsAux (some (c, false)) rest
      | some (c0, _) => collapseWsAux (some (c0, true)) rest
    else wsFlush st ++ c :: collapseWsAux none rest

/-- Second step of `cleanupLine`. -/
def collapseWs (s : List Char) : List Char :=
  collapseWsAux none s

/-- `strings.TrimSpace`. -/
def goTrimSpaceL (s : List Char) : List Char :=
  ((s.dropWhile goUnicodeSpace).reverse.dropWhile goUnicodeSpace).reverse

/-- `cleanupLine` from main.go: strip every `\[.*?]` tag, collapse `\s{2,}`
runs to one space, then `strings.TrimSpace`. -/
def cleanupL (s : List Char) : List Char :=
  goTrimSpaceL (collapseWs (stripTags s))

/-- `cleanupLine` on `String`. -/
def cleanupLine (line : String) : String :=
  String.mk (cleanupL line.data)

/-- `strings.TrimSpace` on `String` (the blank-line test of the loop). -/
def trimSpace (line : String) : String :=
  String.mk (goTrimSpaceL line.data)

/-- The literal `[trn]` opening tag (length 5). -/
def trnOpenPat : List Char := "[trn]".data

/-- The literal `[/trn]` closing tag. -/
def trnClosePat : List Char := "[/trn]".data

/-- `extractTranslation` from main.go: leftmost-first match of
`\[trn](.*)\[/trn]`. The capture `(.*)` is greedy, so the match runs from
the first `[trn]` to the last `[/trn]` after it; the capture is then
passed through `cleanupLine`. No match yields the empty string. -/
def extractTranslationL (s : List Char) : List Char :=
  match findSub trnOpenPat s with
  | none => []
  | some i =>
    match findSubLast trnClosePat (s.drop (i + 5)) with
    | none => []
    | some j => cleanupL ((s.drop (i + 5)).take j)

/-- `extractTranslation` on `String`. -/
def extractTranslation (line : String) : String :=
  String.mk (extractTranslationL line.data)

/-- `extractNote` from main.go: leftmost-first match of
`\[p.*?](\[c\s*(.*?)])?(.*?)\[/` returning `(res[2], cleanupLine res[3])`.
The scan anchors at the first `[p`, takes the first `]` after it, then
tries the optional `[c ...]` qualifier group (falling back to the
group-less parse when the remainder after the group has no `[/`, exactly
as the backtracking engine does), and captures non-greedily up to the
first `[/`. When the first `[p` admits no parse, no later start can
(every later search region is a suffix of the failed one), so the result
is the empty pair. -/
def extractNoteL (s : List Char) : List Char × List Char :=
  match findSub "[p".data s with
  | none => ([], [])
  | some i =>
    let after := s.drop (i + 2)
    match findSub "]".data after with
    | none => ([], [])
    | some e =>
      let rest := after.drop (e + 1)
      let noGroup : List Char × List Char :=
        match findSub "[/".data rest with
        | some g => ([], cleanupL (rest.take g))
        | none => ([], [])
      if startsWithL "[c".data rest then
        let afterSp := (rest.drop 2).dropWhile goRegexSpace
        match findSub "]".data afterSp with
        | none => noGroup
        | some f =>
          let rest2 := afterSp.drop (f + 1)
          match findSub "[/".data rest2 with
          | some g => (afterSp.take f, cleanupL (rest2.take g))
          | none => noGroup
      else noGroup

/-- `extractNote` on `String`: `(qualifier, cleaned free text)`. -/
def extractNote (line : String) : String × String :=
  (String.mk (extractNoteL line.data).1, String.mk (extractNoteL line.data).2)

/-- `scanWordArticleTitle` from main.go: `FindString` of `^[^\s\[].*` —
the whole line when its first character is neither regexp whitespace nor
`[`, and the empty string otherwise (including on the empty line). -/
def scanWordArticleTitle (line : String) : String :=
  match line.data with
  | [] => ""
  | c :: _ => if goRegexSpace c || c = '[' then "" else line

/-- `validateBodyLine` from main.go: the line must match `^\s+` (begin
with a whitespace character) and contain one of `[p]`, `[trn]`, `[*]`. -/
def validateBodyLine (line : String) : Except String Unit :=
  match line.data with
  | [] => Except.error "Line is not beginning with spaces"
  | c :: _ =>
    if goRegexSpace c then
      if containsSub "[p]".data line.data || containsSub "[trn]".data line.data ||
          containsSub "[*]".data line.data then
        Except.ok ()
      else Except.error "Line is not containing one of expected tags"
    else Except.error "Line is not beginning with spaces"

/-- One attempt of `scanTitle`'s pattern `PREFIX\s*"(.*)"` at the leftmost
occurrence of the prefix: skip the maximal `\s` run, demand `"`, and
capture greedily up to the last `"` of the remainder. On failure the
engine retries from the next occurrence of the prefix (the fuel, set to
the line length, bounds that left-to-right retry). -/
def scanTitleAux : Nat → List Char → List Char → Option (List Char)
  | 0, _, _ => none
  | fuel + 1, pfx, s =>
    match findSub pfx s with
    | none => none
    | some i =>
      let rest := (s.drop (i + pfx.length)).dropWhile goRegexSpace
      match rest with
      | '"' :: rest2 =>
        match findSubLast "\"".data rest2 with
        | some j => some (rest2.take j)
        | none => scanTitleAux fuel pfx (s.drop (i + 1))
      | _ => scanTitleAux fuel pfx (s.drop (i + 1))

/-- `scanTitle` from main.go: match `PREFIX\s*"(.*)"` against the line and
return the quoted capture (it is written to `*dest` in Go). -/
def scanTitle (pfx line : String) : Option String :=
  (scanTitleAux (line.data.length + 1) pfx.data line.data).map String.mk

/-- A value passed to `Table.AddRow` (Go `interface{}`): the program only
ever passes `string` and `int64` values. -/
inductive GoVal where
  | str : String → GoVal
  | int : Int → GoVal
deriving DecidableEq

/-- `fmt.Sprint` on the values the program uses: a string prints as
itself, an `int64` as its decimal rendering. -/
def GoVal.sprint : GoVal → String
  | .str s => s
  | .int i => toString i

/-- The `Table` struct of main.go. `uniqueValues` is the Go map from
concatenated unique-key values to row identities. -/
structure Table where
  name : String
  counter : Int
  rows : List (List String)
  columns : List String
  uniqueColIndices : List Nat
  uniqueValues : List (String × Int)
deriving DecidableEq

/-- `NewTable` from main.go. -/
def newTable (name : String) (columns : List String) : Table :=
  { name := name, counter := 0, rows := [], columns := columns,
    uniqueColIndices := [], uniqueValues := [] }

/-- Index of the first column with the given name (the inner loop of
`SetUniqueCols`, which breaks at the first hit). -/
def colIndex : List String → String → Option Nat
  | [], _ => none
  | c :: rest, target => if c = target then some 0 else (colIndex rest target).map (· + 1)

/-- `SetUniqueCols` from main.go: append the index of each named column to
`uniqueColIndices`; an unknown name panics (`none`). Every index it ever
records is an index into `columns`. -/
def setUniqueCols (t : Table) (uniqueCols : List String) : Option Table :=
  uniqueCols.foldlM
    (fun acc uniqueCol =>
      (colIndex acc.columns uniqueCol).map
        (fun k => { acc with uniqueColIndices := acc.uniqueColIndices ++ [k] }))
    t

/-- Go map lookup on the association-list model. -/
def mapLookup : List (String × Int) → String → Option Int
  | [], _ => none
  | (k, v) :: rest, key => if k = key then some v else mapLookup rest key

/-- The composite dedup key of `AddRow`: the concatenation, in
`uniqueColIndices` order, of `fmt.Sprint` of the designated values.
`getD` stands for Go's `row[uniqueColIndex]`; `SetUniqueCols` only ever
records indices below the column count, so with a length-checked row the
default is never consulted. -/
def concatKey (indices : List Nat) (row : List GoVal) : String :=
  (indices.map (fun i => (row.getD i (GoVal.str "")).sprint)).foldl (· ++ ·) ""

/-- `Table.AddRow` from main.go. A row whose length differs from the
declared column count panics (`none`). With a unique key configured, a
repeated key returns the existing identity and leaves the table
untouched; otherwise the key is recorded, the `fmt.Sprint`-rendered row
is appended and the incremented counter becomes its identity. -/
def addRow (t : Table) (row : List GoVal) : Option (Table × Int) :=
  let counter := t.counter + 1
  if row.length = t.columns.length then
    if t.uniqueColIndices = [] then
      some ({ t with rows := t.rows ++ [row.map GoVal.sprint], counter := counter }, counter)
    else
      let key := concatKey t.uniqueColIndices row
      match mapLookup t.uniqueValues key with
      | some rowId => some (t, rowId)
      | none =>
        some ({ t with uniqueValues := t.uniqueValues ++ [(key, counter)],
                       rows := t.rows ++ [row.map GoVal.sprint], counter := counter }, counter)
  else none

/-- `wordsTable` as declared in `main` (no unique key). -/
def wordsTable0 : Table := newTable "words" ["word", "dic_id", "lang_id"]

/-- `dictionariesTable` as declared in `main` (no unique key). -/
def dictionariesTable0 : Table := newTable "dictionaries" ["name"]

/-- `translationsTable` after its `SetUniqueCols("word_from_id", "word_to_id")`. -/
def translationsTable0 : Table :=
  { newTable "translations" ["word_from_id", "word_to_id"] with uniqueColIndices := [0, 1] }

/-- `gramTypeTable` after its `SetUniqueCols("value")`. -/
def gramTypeTable0 : Table :=
  { newTable "gramTypes" ["value"] with uniqueColIndices := [0] }

/-- `gramTypeTranslationTable` after its `SetUniqueCols`. -/
def gramTypeTranslationTable0 : Table :=
  { newTable "gramTypesToTranslations" ["gram_type_id", "translation_id"] with
    uniqueColIndices := [0, 1] }

/-- `translationAttributesTable` after its `SetUniqueCols("value")`. -/
def translationAttributesTable0 : Table :=
  { newTable "translationAttributes" ["value"] with uniqueColIndices := [0] }

/-- `translationAttributesToTranslationsTable` after its `SetUniqueCols`. -/
def translationAttributesToTranslationsTable0 : Table :=
  { newTable "translationAttributesTranslations" ["attribute_id", "translation_id"] with
    uniqueColIndices := [0, 1] }

/-- `languagesTable` after its `SetUniqueCols("name")`. -/
def languagesTable0 : Table :=
  { newTable "languages" ["name"] with uniqueColIndices := [0] }

theorem translationsTable0_fromSource :
    setUniqueCols (newTable "translations" ["word_from_id", "word_to_id"])
      ["word_from_id", "word_to_id"] = some translationsTable0 := by decide

theorem gramTypeTable0_fromSource :
    setUniqueCols (newTable "gramTypes" ["value"]) ["value"] = some gramTypeTable0 := by decide

theorem gramTypeTranslationTable0_fromSource :
    setUniqueCols (newTable "gramTypesToTranslations" ["gram_type_id", "translation_id"])
      ["gram_type_id", "translation_id"] = some gramTypeTranslationTable0 := by decide

theorem translationAttributesTable0_fromSource :
    setUniqueCols (newTable "translationAttributes" ["value"]) ["value"]
      = some translationAttributesTable0 := by decide

theorem translationAttributesToTranslationsTable0_fromSource :
    setUniqueCols (newTable "translationAttributesTranslations" ["attribute_id", "translation_id"])
      ["attribute_id", "translation_id"] = some translationAttributesToTranslationsTable0 := by
  decide

theorem languagesTable0_fromSource :
    setUniqueCols (newTable "languages" ["name"]) ["name"] = some languagesTable0 := by decide

/-- The mutable state of `main`'s scan loop: the eight tables plus the
`int64` session variables (zero-valued at start) and the three header
name strings (empty at start). -/
structure ScanState where
  words : Table
  dictionaries : Table
  languages : Table
  translations : Table
  gramTypes : Table
  gramTypeTranslations : Table
  translationAttributes : Table
  translationAttributesToTranslations : Table
  dicId : Int
  langFromId : Int
  langToId : Int
  wordFromId : Int
  gramTypeId : Int
  attributeId : Int
  translationId : Int
  wordToId : Int
  dicName : String
  langFromName : String
  langToName : String
deriving DecidableEq

/-- The state at the top of `main`'s scan loop. -/
def initState : ScanState :=
  { words := wordsTable0, dictionaries := dictionariesTable0, languages := languagesTable0,
    translations := translationsTable0, gramTypes := gramTypeTable0,
    gramTypeTranslations := gramTypeTranslationTable0,
    translationAttributes := translationAttributesTable0,
    translationAttributesToTranslations := translationAttributesToTranslationsTable0,
    dicId := 0, langFromId := 0, langToId := 0, wordFromId := 0, gramTypeId := 0,
    attributeId := 0, translationId := 0, wordToId := 0,
    dicName := "", langFromName := "", langToName := "" }

/-- One iteration of `main`'s scan loop on one decoded line. `none` is the
process abort of `log.Panicf` / `errs.FailOnError`. The branch order is
that of main.go: blank skip, the three first-wins header matches, the
headword match (which resets the grammar/attribute session ids), then
body-line validation and the note/translation inserts. -/
def step (st : ScanState) (line : String) : Option ScanState :=
  if trimSpace line = "" then some st
  else
    match (if st.dicName = "" then scanTitle "#NAME" line else none) with
    | some name =>
      (addRow st.dictionaries [GoVal.str name]).map
        (fun p => { st with dictionaries := p.1, dicId := p.2, dicName := name })
    | none =>
    match (if st.langFromName = "" then scanTitle "#INDEX_LANGUAGE" line else none) with
    | some name =>
      (addRow st.languages [GoVal.str name]).map
        (fun p => { st with languages := p.1, langFromId := p.2, langFromName := name })
    | none =>
    match (if st.langToName = "" then scanTitle "#CONTENTS_LANGUAGE" line else none) with
    | some name =>
      (addRow st.languages [GoVal.str name]).map
        (fun p => { st with languages := p.1, langToId := p.2, langToName := name })
    | none =>
      let wordArticleTitle := scanWordArticleTitle line
      if wordArticleTitle ≠ "" then
        (addRow st.words [GoVal.str wordArticleTitle, GoVal.int st.dicId,
            GoVal.int st.langFromId]).map
          (fun p => { st with words := p.1, wordFromId := p.2, gramTypeId := 0, attributeId := 0 })
      else
        match validateBodyLine line with
        | Except.error _ => none
        | Except.ok _ =>
          let note := (extractNote line).2
          let translation := extractTranslation line
          if note ≠ "" ∧ translation = "" then
            (addRow st.gramTypes [GoVal.str note]).map
              (fun p => { st with gramTypes := p.1, gramTypeId := p.2 })
          else if translation ≠ "" then do
            let (wt, wordToId) ←
              addRow st.words [GoVal.str translation, GoVal.int st.dicId, GoVal.int st.langToId]
            let (tt, translationId) ←
              addRow st.translations [GoVal.int st.wordFromId, GoVal.int wordToId]
            let st1 := { st with words := wt, wordToId := wordToId,
                                 translations := tt, translationId := translationId }
            let st2 ←
              if note ≠ "" then do
                let (at1, attributeId) ← addRow st1.translationAttributes [GoVal.str note]
                let (att1, _) ← addRow st1.translationAttributesToTranslations
                  [GoVal.int attributeId, GoVal.int translationId]
                pure { st1 with translationAttributes := at1,
                                translationAttributesToTranslations := att1, attributeId := 0 }
              else pure st1
            if st2.gramTypeId > (0 : Int) then do
              let (gtt, _) ← addRow st2.gramTypeTranslations
                [GoVal.int st2.gramTypeId, GoVal.int translationId]
              pure { st2 with gramTypeTranslations := gtt }
            else pure st2
          else some st

/-- The whole scan loop of `main` over the decoded lines of the input. -/
def runLines (lines : List String) : Option ScanState :=
  List.foldlM step initState lines

/-- The seven tables `main` prints at the end, in their `tables` slice
order; `translationAttributesToTranslations` is populated but never
appended to the slice and so is never rendered. -/
def renderedTables (st : ScanState) : List Table :=
  [st.words, st.dictionaries, st.languages, st.translations,
   st.gramTypes, st.gramTypeTranslations, st.translationAttributes]

/-- The rendered output of a whole run: `none` when the run aborts before
the print loop is reached. -/
def runOutput (lines : List String) : Option (List Table) :=
  (runLines lines).map renderedTables

theorem startsWithL_length {pat s : List Char} (h : startsWithL pat s = true) :
    pat.length ≤ s.length := by
  induction pat generalizing s with
  | nil => simp
  | cons p ps ih =>
    cases s with
    | nil => simp [startsWithL] at h
    | cons c cs =>
      simp only [startsWithL, Bool.and_eq_true, decide_eq_true_eq] at h
      simpa using ih h.2

theorem occursAtB_lt_length {pat s : List Char} {i : Nat}
    (h : occursAtB pat s i = true) (hp : pat ≠ []) : i < s.length := by
  have hsw : startsWithL pat (s.drop i) = true := by simpa [occursAtB] using h
  have hl := startsWithL_length hsw
  have h1 : 1 ≤ pat.length := by
    cases pat with
    | nil => simp at hp
    | cons _ _ => simp
  simp only [List.length_drop] at hl
  omega

theorem findSub_none {pat s : List Char} (h : findSub pat s = none) :
    ∀ i, occursAtB pat s i = false := by
  induction s with
  | nil =>
    intro i
    rw [findSub] at h
    by_cases hs : startsWithL pat [] = true
    · simp [hs] at h
    · simp only [occursAtB, List.drop_nil]
      simpa using hs
  | cons c t ih =>
    intro i
    rw [findSub] at h
    by_cases hs : startsWithL pat (c :: t) = true
    · simp [hs] at h
    · simp only [hs, Bool.false_eq_true, if_false, Option.map_eq_none'] at h
      cases i with
      | zero => simpa [occursAtB] using hs
      | succ i => simpa [occursAtB, List.drop_succ_cons] using ih h i

theorem findSub_some {pat s : List Char} {i : Nat} (h : findSub pat s = some i) :
    occursAtB pat s i = true ∧ ∀ k, k < i → occursAtB pat s k = false := by
  induction s generalizing i with
  | nil =>
    rw [findSub] at h
    by_cases hs : startsWithL pat [] = true
    · simp only [hs, if_true, Option.some_inj] at h
      subst h
      exact ⟨by simpa [occursAtB] using hs, by omega⟩
    · simp [hs] at h
  | cons c t ih =>
    rw [findSub] at h
    by_cases hs : startsWithL pat (c :: t) = true
    · simp only [hs, if_true, Option.some_inj] at h
      subst h
      exact ⟨by simpa [occursAtB] using hs, by omega⟩
    · simp only [hs, Bool.false_eq_true, if_false, Option.map_eq_some'] at h
      obtain ⟨j, hj, rfl⟩ := h
      obtain ⟨h1, h2⟩ := ih hj
      refine ⟨by simpa [occursAtB, List.drop_succ_cons] using h1, ?_⟩
      intro k hk
      cases k with
      | zero => simpa [occursAtB] using hs
      | succ k => simpa [occursAtB, List.drop_succ_cons] using h2 k (by omega)

theorem findSub_eq_some {pat s : List Char} {i : Nat} (h1 : occursAtB pat s i = true)
    (h2 : ∀ k, k < i → occursAtB pat s k = false) : findSub pat s = some i := by
  cases hf : findSub pat s with
  | none => exact absurd h1 (by simp [findSub_none hf i])
  | some i' =>
    obtain ⟨g1, g2⟩ := findSub_some hf
    rcases Nat.lt_trichotomy i i' with hlt | heq | hgt
    · exact absurd h1 (by simp [g2 i hlt])
    · rw [heq]
    · exact absurd g1 (by simp [h2 i' hgt])

theorem findSubLast_none {pat s : List Char} (h : findSubLast pat s = none) :
    ∀ k, occursAtB pat s k = false := by
  induction s with
  | nil =>
    intro k
    rw [findSubLast] at h
    by_cases hs : startsWithL pat [] = true
    · simp [hs] at h
    · simp only [occursAtB, List.drop_nil]
      simpa using hs
  | cons c t ih =>
    intro k
    rw [findSubLast] at h
    cases hft : findSubLast pat t with
    | some j => rw [hft] at h; simp at h
    | none =>
      rw [hft] at h
      by_cases hs : startsWithL pat (c :: t) = true
      · simp [hs] at h
      · cases k with
        | zero => simpa [occursAtB] using hs
        | succ k => simpa [occursAtB, List.drop_succ_cons] using ih hft k

theorem findSubLast_some {pat s : List Char} (hp : pat ≠ []) {j : Nat}
    (h : findSubLast pat s = some j) :
    occursAtB pat s j = true ∧ ∀ k, j < k → occursAtB pat s k = false := by
  induction s generalizing j with
  | nil =>
    rw [findSubLast] at h
    have hs : startsWithL pat [] = false := by
      cases pat with
      | nil => simp at hp
      | cons _ _ => rfl
    simp [hs] at h
  | cons c t ih =>
    rw [findSubLast] at h
    cases hft : findSubLast pat t with
    | some j0 =>
      rw [hft] at h
      simp only [Option.some_inj] at h
      subst h
      obtain ⟨g1, g2⟩ := ih hft
      refine ⟨by simpa [occursAtB, List.drop_succ_cons] using g1, ?_⟩
      intro k hk
      cases k with
      | zero => omega
      | succ k => simpa [occursAtB, List.drop_succ_cons] using g2 k (by omega)
    | none =>
      rw [hft] at h
      by_cases hs : startsWithL pat (c :: t) = true
      · simp only [hs, if_true, Option.some_inj] at h
        subst h
        refine ⟨by simpa [occursAtB] using hs, ?_⟩
        intro k hk
        cases k with
        | zero => omega
        | succ k => simpa [occursAtB, List.drop_succ_cons] using findSubLast_none hft k
      · simp [hs] at h

theorem findSubLast_eq_some {pat s : List Char} (hp : pat ≠ []) {j : Nat}
    (h1 : occursAtB pat s j = true) (h2 : ∀ k, j < k → occursAtB pat s k = false) :
    findSubLast pat s = some j := by
  cases hf : findSubLast pat s with
  | none => exact absurd h1 (by simp [findSubLast_none hf j])
  | some j' =>
    obtain ⟨g1, g2⟩ := findSubLast_some hp hf
    rcases Nat.lt_trichotomy j j' with hlt | heq | hgt
    · exact absurd g1 (by simp [h2 j' hlt])
    · rw [heq]
    · exact absurd h1 (by simp [g2 j hgt])

theorem mapLookup_append_self {l : List (String × Int)} {k : String} {v : Int}
    (h : mapLookup l k = none) : mapLookup (l ++ [(k, v)]) k = some v := by
  induction l with
  | nil => simp [mapLookup]
  | cons p rest ih =>
    obtain ⟨k0, v0⟩ := p
    rw [mapLookup] at h
    by_cases hk : k0 = k
    · simp [hk] at h
    · simpa [mapLookup, hk] using ih (by simpa [hk] using h)

theorem addRow_total (t : Table) (row : List GoVal) (h : row.length = t.columns.length) :
    ∃ t' i, addRow t row = some (t', i) := by
  have hsome : (addRow t row).isSome = true := by
    rw [addRow]
    simp only [h, if_true, eq_self_iff_true]
    split
    · simp
    · split <;> simp
  obtain ⟨⟨t', i⟩, hp⟩ := Option.isSome_iff_exists.mp hsome
  exact ⟨t', i, hp⟩

/-- C6: for every unique-keyed store and every value tuple whose composite
key is not yet present, inserting the same composite key twice returns the
same identity both times, and the store's row count increases by exactly
one across the two inserts, not two. -/
theorem uniqueInsertTwiceDedups (t : Table) (row : List GoVal)
    (hu : t.uniqueColIndices ≠ [])
    (_hrange : ∀ i ∈ t.uniqueColIndices, i < t.columns.length)
    (hlen : row.length = t.columns.length)
    (hfresh : mapLookup t.uniqueValues (concatKey t.uniqueColIndices row) = none) :
    ∃ t', addRow t row = some (t', t.counter + 1) ∧
      addRow t' row = some (t', t.counter + 1) ∧
      t'.rows.length = t.rows.length + 1 := by
  refine ⟨{ t with
      uniqueValues := t.uniqueValues ++ [(concatKey t.uniqueColIndices row, t.counter + 1)],
      rows := t.rows ++ [row.map GoVal.sprint], counter := t.counter + 1 }, ?_, ?_, ?_⟩
  · simp [addRow, hlen, hu, hfresh]
  · simp [addRow, hlen, hu, mapLookup_append_self hfresh]
  · simp

theorem uniqueInsertTwiceDedupsWitness :
    ∃ t', addRow translationsTable0 [GoVal.int 1, GoVal.int 2]
        = some (t', translationsTable0.counter + 1) ∧
      addRow t' [GoVal.int 1, GoVal.int 2] = some (t', translationsTable0.counter + 1) ∧
      t'.rows.length = translationsTable0.rows.length + 1 :=
  uniqueInsertTwiceDedups translationsTable0 [GoVal.int 1, GoVal.int 2]
    (by decide) (by decide) (by decide) (by rfl)

/-- C7: inserting two rows with identical (text, dictionary id, language
id) values into a store configured like the Word store (three columns, no
unique key) returns two distinct identities and appends two rows. -/
theorem wordInsertNeverDedups (t : Table) (text : String) (dic lang : Int)
    (hcols : t.columns = wordsTable0.columns)
    (hu : t.uniqueColIndices = wordsTable0.uniqueColIndices) :
    ∃ t1 t2 id1 id2,
      addRow t [GoVal.str text, GoVal.int dic, GoVal.int lang] = some (t1, id1) ∧
      addRow t1 [GoVal.str text, GoVal.int dic, GoVal.int lang] = some (t2, id2) ∧
      id1 ≠ id2 ∧ t2.rows.length = t.rows.length + 2 := by
  have hu' : t.uniqueColIndices = [] := by simpa [wordsTable0, newTable] using hu
  have hlen : ([GoVal.str text, GoVal.int dic, GoVal.int lang] : List GoVal).length
      = t.columns.length := by simp [hcols, wordsTable0, newTable]
  refine ⟨{ t with
      rows := t.rows ++ [[text, toString dic, toString lang]]
      counter := t.counter + 1 },
    { t with
      rows := t.rows ++ [[text, toString dic, toString lang]] ++ [[text, toString dic, toString lang]]
      counter := t.counter + 1 + 1 },
    t.counter + 1, t.counter + 1 + 1, ?_, ?_, by omega, by simp⟩
  · simp [addRow, hlen, hu', GoVal.sprint]
  · simp [addRow, hlen, hu', GoVal.sprint]

theorem wordInsertNeverDedupsWitness :
    ∃ t1 t2 id1 id2,
      addRow wordsTable0 [GoVal.str "cat", GoVal.int 1, GoVal.int 1] = some (t1, id1) ∧
      addRow t1 [GoVal.str "cat", GoVal.int 1, GoVal.int 1] = some (t2, id2) ∧
      id1 ≠ id2 ∧ t2.rows.length = wordsTable0.rows.length + 2 :=
  wordInsertNeverDedups wordsTable0 "cat" 1 1 rfl rfl

/-- C8: an insert whose value count differs from the declared column count
is a fatal configuration error (`log.Panicf`, modelled `none`): the run
aborts and no store with a truncated or padded row is ever produced. -/
theorem addRowColumnMismatchFatal (t : Table) (row : List GoVal)
    (h : row.length ≠ t.columns.length) : addRow t row = none := by
  simp [addRow, h]

theorem addRowColumnMismatchFatalWitness : addRow wordsTable0 [GoVal.str "x"] = none :=
  addRowColumnMismatchFatal wordsTable0 [GoVal.str "x"] (by decide)

/-- The Translation store after inserting the pair (1, 23). -/
def c10Table : Table :=
  { translationsTable0 with rows := [["1", "23"]], counter := 1, uniqueValues := [("123", 1)] }

/-- C10: the dedup key of the Translation store is the separator-free
concatenation of the two ids' decimal renderings, so the distinct pairs
(1, 23) and (12, 3) share the key "123": the second insert returns the
first pair's identity and adds no row. -/
theorem translationDedupKeyCollision :
    concatKey translationsTable0.uniqueColIndices [GoVal.int 1, GoVal.int 23]
      = concatKey translationsTable0.uniqueColIndices [GoVal.int 12, GoVal.int 3] ∧
    addRow translationsTable0 [GoVal.int 1, GoVal.int 23] = some (c10Table, 1) ∧
    addRow c10Table [GoVal.int 12, GoVal.int 3] = some (c10Table, 1) ∧
    c10Table.rows.length = 1 :=
  ⟨by decide, by decide, by decide, by decide⟩

/-- The five-line end-to-end input of the spec's §8 example. -/
def c1Input : List String :=
  ["#NAME \"TestDict\"", "#INDEX_LANGUAGE \"English\"", "#CONTENTS_LANGUAGE \"French\"",
   "cat", " [p]n[/p][trn]chat[/trn]"]

/-- C1 counterexample: on the spec's five-line example the GrammarType and
GrammarTypeTranslation stores come out empty, not {1: "n"} / {1: (1, 1)}:
the body line carries a translation, so its note is routed to
TranslationAttribute and `gramTypeId` stays 0. -/
theorem endToEndExampleRefuted :
    (runLines c1Input).map (fun st => (st.gramTypes.rows, st.gramTypeTranslations.rows))
      = some ([], []) ∧
    (runLines c1Input).map (fun st => (st.gramTypes.rows, st.gramTypeTranslations.rows))
      ≠ some ([["n"]], [["1", "1"]]) :=
  ⟨by decide, by decide⟩

/-- C1 amended: the five-line example completes and yields
Dictionary{1:TestDict}, Language{1:English,2:French}, Word{1:(cat,1,1),
2:(chat,1,2)}, Translation{1:(1,2)}, an empty GrammarType, an empty
GrammarTypeTranslation, TranslationAttribute{1:n} and
AttributeTranslation{1:(1,1)}. -/
theorem endToEndExampleActual :
    (runLines c1Input).map (fun st =>
      (st.dictionaries.rows, st.languages.rows, st.words.rows, st.translations.rows))
      = some ([["TestDict"]], [["English"], ["French"]],
          [["cat", "1", "1"], ["chat", "1", "2"]], [["1", "2"]]) ∧
    (runLines c1Input).map (fun st =>
      (st.gramTypes.rows, st.gramTypeTranslations.rows, st.translationAttributes.rows,
       st.translationAttributesToTranslations.rows))
      = some ([], [], [["n"]], [["1", "1"]]) :=
  ⟨by decide, by decide⟩

/-- The headword-plus-two-body-lines input of the C2 scenario. -/
def c2Input : List String := ["cat", " [p]noun[/p][trn]foo[/trn]", " [trn]bar[/trn]"]

/-- The same scenario with the grammar note on a line of its own. -/
def c2InputSeparate : List String :=
  ["cat", " [p]noun[/p]", " [trn]foo[/trn]", " [trn]bar[/trn]"]

/-- C2 counterexample: on the stated input both Translation rows exist but
GrammarType and GrammarTypeTranslation are empty — the `[p]noun[/p]` note
shares its line with a translation, so it never becomes a GrammarType. -/
theorem grammarPersistenceStatedRefuted :
    (runLines c2Input).map (fun st =>
      (st.translations.rows, st.gramTypes.rows, st.gramTypeTranslations.rows))
      = some ([["1", "2"], ["1", "3"]], [], []) :=
  by decide

/-- C2 amended: on the stated input "noun" is stored as a
TranslationAttribute of the first translation only; grammar persistence
holds when the note is on a line of its own — then both translations are
linked in GrammarTypeTranslation to the single GrammarType row "noun". -/
theorem grammarPersistenceActual :
    (runLines c2Input).map (fun st =>
      (st.gramTypes.rows, st.gramTypeTranslations.rows, st.translationAttributes.rows,
       st.translationAttributesToTranslations.rows))
      = some ([], [], [["noun"]], [["1", "1"]]) ∧
    (runLines c2InputSeparate).map (fun st =>
      (st.gramTypes.rows, st.translations.rows, st.gramTypeTranslations.rows))
      = some ([["noun"]], [["1", "2"], ["1", "3"]], [["1", "1"], ["1", "2"]]) :=
  ⟨by decide, by decide⟩

/-- A headword followed by a body line whose note has qualifier "red" and
cleaned free text "adj", plus a translation "big". -/
def c3Input : List String := ["cat", " [p][c red]adj[/p][trn]big[/trn]"]

/-- C3 counterexample: the note's qualifier on the body line is "red", yet
the TranslationAttribute store receives the cleaned free text "adj" — the
qualifier is discarded (`_, note := extractNote(line)`), never stored. -/
theorem attributeQualifierRefuted :
    (extractNote " [p][c red]adj[/p][trn]big[/trn]").1 = "red" ∧
    (runLines c3Input).map (fun st => st.translationAttributes.rows) = some [["adj"]] ∧
    (runLines c3Input).map (fun st => st.translationAttributes.rows) ≠ some [["red"]] :=
  ⟨by decide, by decide, by decide⟩

/-- The two-header input of the C4 scenario. -/
def c4Input : List String := ["#NAME \"A\"", "#NAME \"B\""]

/-- C4 counterexample: the Word store does not stay unchanged — the second
`#NAME "B"` line is classified as a headword and inserts a Word row. -/
theorem secondHeaderIgnoredRefuted :
    (runLines c4Input).map (fun st => st.words.rows) = some [["#NAME \"B\"", "1", "0"]] ∧
    (runLines c4Input).map (fun st => st.words.rows) ≠ some [] :=
  ⟨by decide, by decide⟩

/-- C4 amended: only the Dictionary row for "A" is created (the second
`#NAME` line matches no header because `dicName` is already set), but the
line is not ignored: being non-indented and not bracket-led it is parsed
as a headword, inserting the Word row ("#NAME \"B\"", 1, 0). -/
theorem headerFirstWinsHeadwordInserted :
    (runLines c4Input).map (fun st => (st.dictionaries.rows, st.dicName, st.words.rows))
      = some ([["A"]], "A", [["#NAME \"B\"", "1", "0"]]) := by
  decide

/-- The single-line input of the C5 scenario. -/
def c5Input : List String := ["notindented[trn]x[/trn]"]

/-- C5 counterexample: a run containing `notindented[trn]x[/trn]` does not
abort — the line is classified as a headword (first character not
whitespace, not `[`), a Word row is inserted, and tables are rendered. -/
theorem validationAbortRefuted :
    (runOutput c5Input).isSome = true ∧
    (runLines c5Input).map (fun st => st.words.rows)
      = some [["notindented[trn]x[/trn]", "0", "0"]] :=
  ⟨by decide, by decide⟩

/-- C5 amended: a non-indented line beginning with a character other than
whitespace or `[` — such as `notindented[trn]x[/trn]` — is never a
validation error: whatever state the scan is in, the line is classified
as a headword, a Word row with its full text is inserted and the run
continues. The validation abort (with no rendered tables) is reserved for
lines that reach the body branch, e.g. the non-indented `[trn]x[/trn]`,
which begins with `[`. -/
theorem nonIndentedLineIsHeadword :
    (∀ st : ScanState, st.words.columns = wordsTable0.columns →
      st.words.uniqueColIndices = [] →
      step st "notindented[trn]x[/trn]" = some { st with
        words := { st.words with
          rows := st.words.rows
            ++ [["notindented[trn]x[/trn]", toString st.dicId, toString st.langFromId]]
          counter := st.words.counter + 1 }
        wordFromId := st.words.counter + 1
        gramTypeId := 0
        attributeId := 0 }) ∧
    runOutput ["[trn]x[/trn]"] = none := by
  constructor
  · intro st hcols hu
    have e1 : scanTitle "#NAME" "notindented[trn]x[/trn]" = none := by decide
    have e2 : scanTitle "#INDEX_LANGUAGE" "notindented[trn]x[/trn]" = none := by decide
    have e3 : scanTitle "#CONTENTS_LANGUAGE" "notindented[trn]x[/trn]" = none := by decide
    have e4 : scanWordArticleTitle "notindented[trn]x[/trn]" = "notindented[trn]x[/trn]" := by
      decide
    have e5 : ¬(trimSpace "notindented[trn]x[/trn]" = "") := by decide
    have e6 : ("notindented[trn]x[/trn]" : String) ≠ "" := by decide
    have hlen : ([GoVal.str "notindented[trn]x[/trn]", GoVal.int st.dicId,
        GoVal.int st.langFromId] : List GoVal).length = st.words.columns.length := by
      simp [hcols, wordsTable0, newTable]
    rw [step]
    simp only [e1, e2, e3, e4, e5, e6, ite_self, if_false, if_true, ne_eq,
      not_false_iff]
    simp [addRow, hlen, hu, GoVal.sprint]
  · decide

theorem nonIndentedLineIsHeadwordWitness :
    step initState "notindented[trn]x[/trn]" = some { initState with
      words := { initState.words with
        rows := [["notindented[trn]x[/trn]", "0", "0"]]
        counter := 1 }
      wordFromId := 1
      gramTypeId := 0
      attributeId := 0 } := by
  have h := nonIndentedLineIsHeadword.1 initState rfl rfl
  exact h.trans (by decide)

/-- C3 amended: on every body line carrying both a translation and a note
with nonempty cleaned free text, it is that cleaned free text — not the
`[c ...]` qualifier, which `main` discards — that is inserted (with dedup)
into the TranslationAttribute store, a join row linking the resulting
attribute id to this line's translation id is inserted into
AttributeTranslation, and the per-line attribute id is then reset to 0,
so it does not persist to later lines. -/
theorem attributeInsertUsesCleanedNote (st : ScanState) (line : String)
    (h1 : trimSpace line ≠ "")
    (h2 : scanTitle "#NAME" line = none)
    (h3 : scanTitle "#INDEX_LANGUAGE" line = none)
    (h4 : scanTitle "#CONTENTS_LANGUAGE" line = none)
    (h5 : scanWordArticleTitle line = "")
    (h6 : validateBodyLine line = Except.ok ())
    (h7 : (extractNote line).2 ≠ "")
    (h8 : extractTranslation line ≠ "")
    (hw : st.words.columns.length = 3)
    (ht : st.translations.columns.length = 2)
    (ha : st.translationAttributes.columns.length = 1)
    (hj : st.translationAttributesToTranslations.columns.length = 2)
    (hg : st.gramTypeTranslations.columns.length = 2) :
    ∃ st' wt wordToId tt translationId at1 attributeId att1 joinId,
      addRow st.words [GoVal.str (extractTranslation line), GoVal.int st.dicId,
        GoVal.int st.langToId] = some (wt, wordToId) ∧
      addRow st.translations [GoVal.int st.wordFromId, GoVal.int wordToId]
        = some (tt, translationId) ∧
      addRow st.translationAttributes [GoVal.str (extractNote line).2]
        = some (at1, attributeId) ∧
      addRow st.translationAttributesToTranslations
        [GoVal.int attributeId, GoVal.int translationId] = some (att1, joinId) ∧
      step st line = some st' ∧
      st'.translationAttributes = at1 ∧
      st'.translationAttributesToTranslations = att1 ∧
      st'.attributeId = 0 := by
  obtain ⟨wt, wordToId, hwRow⟩ := addRow_total st.words
    [GoVal.str (extractTranslation line), GoVal.int st.dicId, GoVal.int st.langToId]
    (by simp [hw])
  obtain ⟨tt, translationId, htRow⟩ := addRow_total st.translations
    [GoVal.int st.wordFromId, GoVal.int wordToId] (by simp [ht])
  obtain ⟨at1, attributeId, haRow⟩ := addRow_total st.translationAttributes
    [GoVal.str (extractNote line).2] (by simp [ha])
  obtain ⟨att1, joinId, hjRow⟩ := addRow_total st.translationAttributesToTranslations
    [GoVal.int attributeId, GoVal.int translationId] (by simp [hj])
  have hc : ¬((extractNote line).2 ≠ "" ∧ extractTranslation line = "") :=
    fun hpair => h8 hpair.2
  by_cases hgt : st.gramTypeId > (0 : Int)
  · obtain ⟨gtt, gId, hgRow⟩ := addRow_total st.gramTypeTranslations
      [GoVal.int st.gramTypeId, GoVal.int translationId] (by simp [hg])
    refine ⟨{ st with
        words := wt
        wordToId := wordToId
        translations := tt
        translationId := translationId
        translationAttributes := at1
        translationAttributesToTranslations := att1
        attributeId := 0
        gramTypeTranslations := gtt },
      wt, wordToId, tt, translationId, at1, attributeId, att1, joinId,
      hwRow, htRow, haRow, hjRow, ?_, rfl, rfl, rfl⟩
    rw [step]
    simp only [h2, h3, h4, h5, ite_self, if_neg h1, ne_eq, not_true_eq_false,
      if_false, h6]
    rw [if_neg hc, if_pos h8]
    simp only [Option.bind_eq_bind', hwRow, htRow, Option.some_bind, if_pos h7,
      haRow, hjRow]
    simp only [Option.pure_def, Option.some_bind, if_pos hgt, hgRow]
  · refine ⟨{ st with
        words := wt
        wordToId := wordToId
        translations := tt
        translationId := translationId
        translationAttributes := at1
        translationAttributesToTranslations := att1
        attributeId := 0 },
      wt, wordToId, tt, translationId, at1, attributeId, att1, joinId,
      hwRow, htRow, haRow, hjRow, ?_, rfl, rfl, rfl⟩
    rw [step]
    simp only [h2, h3, h4, h5, ite_self, if_neg h1, ne_eq, not_true_eq_false,
      if_false, h6]
    rw [if_neg hc, if_pos h8]
    simp only [Option.bind_eq_bind', hwRow, htRow, Option.some_bind, if_pos h7,
      haRow, hjRow]
    simp only [Option.pure_def, Option.some_bind, if_neg hgt]

theorem attributeInsertUsesCleanedNoteWitness :
    ∃ st' wt wordToId tt translationId at1 attributeId att1 joinId,
      addRow initState.words [GoVal.str (extractTranslation " [p][c red]adj[/p][trn]big[/trn]"),
        GoVal.int initState.dicId, GoVal.int initState.langToId] = some (wt, wordToId) ∧
      addRow initState.translations [GoVal.int initState.wordFromId, GoVal.int wordToId]
        = some (tt, translationId) ∧
      addRow initState.translationAttributes
        [GoVal.str (extractNote " [p][c red]adj[/p][trn]big[/trn]").2]
        = some (at1, attributeId) ∧
      addRow initState.translationAttributesToTranslations
        [GoVal.int attributeId, GoVal.int translationId] = some (att1, joinId) ∧
      step initState " [p][c red]adj[/p][trn]big[/trn]" = some st' ∧
      st'.translationAttributes = at1 ∧
      st'.translationAttributesToTranslations = att1 ∧
      st'.attributeId = 0 :=
  attributeInsertUsesCleanedNote initState " [p][c red]adj[/p][trn]big[/trn]"
    (by decide) (by decide) (by decide) (by decide) (by decide) (by rfl)
    (by decide) (by decide) rfl rfl rfl rfl rfl

/-- Modelled from the claim's words (C9): non-greedy capture, i.e. the
text strictly between a `[trn]` opening tag and the FIRST matching close
tag after it, cleaned exactly like the implementation's capture. -/
def extractTranslationFirstCloseL (s : List Char) : List Char :=
  match findSub trnOpenPat s with
  | none => []
  | some i =>
    match findSub trnClosePat (s.drop (i + 5)) with
    | none => []
    | some j => cleanupL ((s.drop (i + 5)).take j)

/-- C9 counterexample: on the line `[trn]a[/trn]b[/trn]` the program's
`extractTranslation` returns "ab" — the greedy `(.*)` capture runs to the
LAST `[/trn]` and the inner tags are stripped — while the claim's
non-greedy reading (capture up to the first matching close tag) yields
"a". -/
theorem extractTranslationNonGreedyRefuted :
    extractTranslation "[trn]a[/trn]b[/trn]" = "ab" ∧
    extractTranslationFirstCloseL "[trn]a[/trn]b[/trn]".data = "a".data ∧
    ("ab" : String) ≠ "a" :=
  ⟨by decide, by decide, by decide⟩

/-- C9 amended: for every input line, `extractTranslation` returns the
text strictly between the first `[trn]` opening tag and the LAST matching
close tag after it — the greedy capture of `\[trn](.*)\[/trn]` — with
embedded tags stripped and 2+ whitespace runs collapsed to one space
(`cleanupLine`), and returns the empty string when no such pair exists:
no opening tag at all, or no closing tag after the first opening tag. -/
theorem extractTranslationGreedyCharacterization :
    (∀ s : List Char, (∀ i, i < s.length → occursAtB trnOpenPat s i = false) →
      extractTranslationL s = []) ∧
    (∀ s i, occursAtB trnOpenPat s i = true →
      (∀ k, k < i → occursAtB trnOpenPat s k = false) →
      (∀ j, j < (s.drop (i + 5)).length → occursAtB trnClosePat (s.drop (i + 5)) j = false) →
      extractTranslationL s = []) ∧
    (∀ s i j, occursAtB trnOpenPat s i = true →
      (∀ k, k < i → occursAtB trnOpenPat s k = false) →
      occursAtB trnClosePat (s.drop (i + 5)) j = true →
      (∀ k, k < (s.drop (i + 5)).length → j < k →
        occursAtB trnClosePat (s.drop (i + 5)) k = false) →
      extractTranslationL s = cleanupL ((s.drop (i + 5)).take j)) := by
  refine ⟨?_, ?_, ?_⟩
  · intro s hno
    cases hf : findSub trnOpenPat s with
    | none => simp [extractTranslationL, hf]
    | some i =>
      have h1 := (findSub_some hf).1
      have hlt := occursAtB_lt_length h1 (by decide)
      exact absurd h1 (by simp [hno i hlt])
  · intro s i hocc hleast hnoc
    have hf : findSub trnOpenPat s = some i := findSub_eq_some hocc hleast
    cases hfl : findSubLast trnClosePat (s.drop (i + 5)) with
    | none => simp [extractTranslationL, hf, hfl]
    | some j =>
      have g1 := (findSubLast_some (by decide) hfl).1
      have hlt := occursAtB_lt_length g1 (by decide)
      exact absurd g1 (by simp [hnoc j hlt])
  · intro s i j hocc hleast hjocc hjmax
    have hf : findSub trnOpenPat s = some i := findSub_eq_some hocc hleast
    have hjall : ∀ k, j < k → occursAtB trnClosePat (s.drop (i + 5)) k = false := by
      intro k hk
      by_cases hkl : k < (s.drop (i + 5)).length
      · exact hjmax k hkl hk
      · cases hocck : occursAtB trnClosePat (s.drop (i + 5)) k with
        | false => rfl
        | true => exact absurd (occursAtB_lt_length hocck (by decide)) hkl
    have hfl : findSubLast trnClosePat (s.drop (i + 5)) = some j :=
      findSubLast_eq_some (by decide) hjocc hjall
    simp [extractTranslationL, hf, hfl]

theorem extractTranslationGreedyCharacterizationWitness :
    extractTranslationL "x[trn] a [/trn]y[/trn]".data = "a y".data := by
  have h := extractTranslationGreedyCharacterization.2.2 "x[trn] a [/trn]y[/trn]".data 1 10
    (by decide) (by decide) (by decide) (by decide)
  exact h.trans (by decide)
